import Mathlib

/-!
Verification of the `quest` fluent HTTP-request builder (package `quest`,
files `quest.go` (first revision, lines 1-492), `next.go`,
`questmultipart/multipart.go`).

The Go code is shallowly embedded: requests, responses and the chained
builder operations become pure Lean functions over explicit state.
External collaborators (the `net/url` parser, the JSON encoder/decoder,
the multipart form writer, the HTTP transport) are modelled by small
executable functions or by function parameters, following the behaviour
the code relies on.  Machine integers (Go `int` status codes) are `Int`.
A Go `nil`-pointer dereference is modelled by an `Option`-returning
operation producing `none`; every normal return is `some`.
-/

namespace Quest

/-- Error taxonomy of the package: `requestError` (build-time, produced by
`handleRequestError`), `responseError` (post-dispatch, produced by
`handleResponseError`), and errors produced verbatim by external
collaborators (e.g. a `questmultipart.Form`'s deferred `Err`).  Each carries
its human-readable `message` field; the debug snapshots attached by the
renderers are diagnostics only and are not modelled. -/
inductive Err where
  | request (message : String)
  | response (message : String)
  | external (message : String)
  deriving DecidableEq, Repr

/-- Model of `strings.HasPrefix` / list prefix test on character lists. -/
def isPref : List Char → List Char → Bool
  | [], _ => true
  | _ :: _, [] => false
  | a :: as, b :: bs => a = b && isPref as bs

/-- Model of `strings.Contains pat ⊆ s` on character lists:
`containsSub pat s` is true iff `pat` occurs contiguously in `s`. -/
def containsSub (pat : List Char) : List Char → Bool
  | [] => isPref pat []
  | c :: t => isPref pat (c :: t) || containsSub pat t

/-- `strings.Contains hay pat` on strings. -/
def strContains (hay pat : String) : Bool :=
  containsSub pat.toList hay.toList

/-- Model of `strings.Replace(s, pat, rep, 1)`: replace the first
occurrence of `pat` in `s` by `rep` (an empty `pat` matches at the start,
as in Go). -/
def replaceFirst : List Char → List Char → List Char → List Char
  | [], pat, rep => if isPref pat [] then rep else []
  | c :: t, pat, rep =>
    if isPref pat (c :: t) then rep ++ (c :: t).drop pat.length
    else c :: replaceFirst t pat rep

/-- `strings.Replace(s, pat, rep, 1)` on strings. -/
def strReplaceFirst (s pat rep : String) : String :=
  ⟨replaceFirst s.toList pat.toList rep.toList⟩

/-! ## The `net/url` collaborator

`url.Parse` / `URL.String` are modelled for the URL shapes the package
manipulates: `scheme://host[:port]/path[?query]` and scheme-less
`path[?query]`.  The parser reproduces the `net/url` failure modes the
code relies on: ASCII control characters anywhere, a non-numeric port,
and a colon in the first segment of a scheme-less path.  Userinfo,
fragments and percent-escaping are not modelled (no operation of the
package depends on them). -/

structure URL where
  scheme : Option String
  host : String
  path : String
  query : String
  deriving DecidableEq, Repr

/-- An ASCII control character (what `net/url` rejects anywhere in a URL). -/
def isCtl (c : Char) : Bool := c.toNat < 0x20 || c.toNat == 0x7f

/-- Scheme characters after the first: ALPHA / DIGIT / "+" / "-" / ".". -/
def isSchemeChar (c : Char) : Bool :=
  c.isAlpha || c.isDigit || c == '+' || c == '-' || c == '.'

/-- A valid scheme: nonempty, starts with a letter, rest scheme chars. -/
def validScheme : List Char → Bool
  | [] => false
  | c :: t => c.isAlpha && t.all isSchemeChar

/-- Split `s` at the first `"://"`, yielding the part before and after. -/
def splitSchemeSep : List Char → List Char → Option (List Char × List Char)
  | acc, ':' :: '/' :: '/' :: r => some (acc.reverse, r)
  | acc, c :: t => splitSchemeSep (c :: acc) t
  | _, [] => none

/-- Take characters until one satisfying `p` (that character stays in the rest). -/
def spanUntil (p : Char → Bool) : List Char → List Char × List Char
  | [] => ([], [])
  | c :: t =>
    if p c then ([], c :: t)
    else
      let (a, b) := spanUntil p t
      (c :: a, b)

/-- Split `path?query` into the path and the raw query (no `'?'`: query ""). -/
def splitQuery (s : List Char) : List Char × List Char :=
  let (p, rest) := spanUntil (· == '?') s
  match rest with
  | _ :: q => (p, q)
  | [] => (p, [])

/-- `net/url`'s `validOptionalPort` on a `host[:port]`: if a colon is
present, everything after the last colon must be digits. -/
def validHostPort (h : List Char) : Bool :=
  if h.contains ':' then
    let port := (h.reverse.takeWhile (· ≠ ':')).reverse
    port.all Char.isDigit
  else true

/-- Model of `url.Parse` (see the module docstring for scope). -/
def parseURL (s : List Char) : Except String URL :=
  if s.any isCtl then .error "net/url: invalid control character in URL"
  else
    match splitSchemeSep [] s with
    | some (sc, rest) =>
      if validScheme sc then
        let (hostport, pq) := spanUntil (fun c => c == '/' || c == '?') rest
        if validHostPort hostport then
          let (p, q) := splitQuery pq
          .ok ⟨some ⟨sc⟩, ⟨hostport⟩, ⟨p⟩, ⟨q⟩⟩
        else .error "invalid port after host"
      else .error "first path segment in URL cannot contain colon"
    | none =>
      let (p, q) := splitQuery s
      if (spanUntil (· == '/') p).1.contains ':' then
        .error "first path segment in URL cannot contain colon"
      else .ok ⟨none, "", ⟨p⟩, ⟨q⟩⟩

/-- Model of `url.URL.String()` for the shapes above. -/
def URL.render (u : URL) : String :=
  (match u.scheme with
   | some sc => sc ++ "://" ++ u.host
   | none => "") ++ u.path ++ (if u.query = "" then "" else "?" ++ u.query)

/-! ## Query-string collaborator (`URL.Query` / `Values.Add` / `Values.Encode`)

`Values.Encode` sorts by key; percent-escaping is not modelled (no claim
touches it and the package passes values through verbatim). -/

/-- Split a character list at every occurrence of `sep`. -/
def splitOn (sep : Char) : List Char → List (List Char)
  | [] => [[]]
  | c :: t =>
    if c = sep then [] :: splitOn sep t
    else
      match splitOn sep t with
      | [] => [[c]]
      | g :: gs => (c :: g) :: gs

/-- Parse a raw query into key/value pairs (model of `url.ParseQuery`). -/
def parseQuery (q : String) : List (String × String) :=
  (splitOn '&' q.toList).filterMap fun kv =>
    if kv = [] then none
    else
      let (k, rest) := spanUntil (· == '=') kv
      match rest with
      | _ :: v => some (⟨k⟩, ⟨v⟩)
      | [] => some (⟨k⟩, "")

/-- Insertion sort of query pairs by key (model of `Values.Encode`'s key sort). -/
def insertSorted (p : String × String) : List (String × String) → List (String × String)
  | [] => [p]
  | q :: t => if p.1 ≤ q.1 then p :: q :: t else q :: insertSorted p t

def sortByKey : List (String × String) → List (String × String)
  | [] => []
  | p :: t => insertSorted p (sortByKey t)

/-- Model of `url.Values.Encode` (sorted `k=v` pairs joined by `&`). -/
def encodeQuery (ps : List (String × String)) : String :=
  String.intercalate "&" ((sortByKey ps).map fun p => p.1 ++ "=" ++ p.2)

/-! ## The multipart collaborator (`questmultipart.Form`)

From `questmultipart/multipart.go`: a `Form` is a buffer of encoded bytes,
a `multipart.Writer` (of which the package only uses
`FormDataContentType()`, determined by the writer's boundary), and a
deferred error `Err`. -/

structure Form where
  buffer : String
  boundary : String
  err : Option Err
  deriving DecidableEq, Repr

/-- `multipart.Writer.FormDataContentType()`: the boundary-bearing
content-type value. -/
def Form.contentType (f : Form) : String :=
  "multipart/form-data; boundary=" ++ f.boundary

/-! ## Base64 collaborator (`base64.StdEncoding.EncodeToString`)

Bytes are taken as the character codes (ASCII inputs; multi-byte UTF-8 is
not modelled). -/

def base64Chars : List Char :=
  "ABCDEFGHIJKLMNOPQRSTUVWXYZabcdefghijklmnopqrstuvwxyz0123456789+/".toList

def b64idx (n : Nat) : Char := base64Chars.getD n 'A'

def base64Groups : List Nat → List Char
  | [] => []
  | [a] => [b64idx (a / 4), b64idx (a % 4 * 16), '=', '=']
  | [a, b] => [b64idx (a / 4), b64idx (a % 4 * 16 + b / 16), b64idx (b % 16 * 4), '=']
  | a :: b :: c :: rest =>
    b64idx (a / 4) :: b64idx (a % 4 * 16 + b / 16) ::
      b64idx (b % 16 * 4 + c / 64) :: b64idx (c % 64) :: base64Groups rest

def base64Encode (s : String) : String :=
  ⟨base64Groups (s.toList.map Char.toNat)⟩

/-! ## Data model (`Request`, `Response`, `Next`)

A Go `Request` built by a failing `url.Parse` is `&Request{err: ...}`:
its `URL`, `headers` and `data` pointers/maps are nil, modelled by `none`.
An operation that would dereference such a nil field returns `none`
(a fault); normal returns are `some`. -/

/-- A `Request` (quest.go lines 22-29; the tracing `span` never affects
control flow or data and is not modelled). -/
structure Request where
  url : Option URL
  method : String
  data : Option String
  headers : Option (List (String × String))
  err : Option Err
  deriving DecidableEq, Repr

/-- Go map insert (`m[k] = v`): overwrite the value at `k`, else append. -/
def insertHeader (hs : List (String × String)) (k v : String) :
    List (String × String) :=
  if hs.any (·.1 = k) then hs.map fun p => if p.1 = k then (k, v) else p
  else hs ++ [(k, v)]

/-- `http.Header.Get` on a response header list (canonicalisation of the
key is done by `net/textproto` outside the package; claims use
already-canonical keys). -/
def headerGet (hs : List (String × String)) (k : String) : String :=
  ((hs.find? (·.1 = k)).map (·.2)).getD ""

/-- A byte stream backing a response body (`io.ReadCloser`).  `closes`
counts how many times `Close` has been called on it. -/
structure Stream where
  contents : String
  closes : Nat
  deriving DecidableEq, Repr

/-- An `http.Response` as the package reads it; `body = none` models a nil
`Body` (as in the zero `http.Response{}` built on the short-circuit path). -/
structure HttpResp where
  statusCode : Int
  headers : List (String × String)
  body : Option Stream
  deriving DecidableEq, Repr

/-- A quest `Response` (quest.go lines 32-35): the embedded
`*http.Response` (`none` models a nil pointer, as returned by a failed
`client.Do`) plus the back-reference to the originating request. -/
structure Response where
  resp : Option HttpResp
  req : Request
  deriving DecidableEq, Repr

/-- `Next` (quest.go lines 38-40): the continuation token carrying the
prior chain's error. -/
structure Next where
  err : Option Err
  deriving DecidableEq, Repr

/-! ## Construction (`New` and the convenience factories) -/

/-- Approximation of Go's `%q` for the parse-error message (escape
sequences inside the quoted string are not reproduced). -/
def goQuote (s : String) : String := "\"" ++ s ++ "\""

/-- `New(method, path)` (quest.go lines 43-58). -/
def New (method path : String) : Request :=
  match parseURL path.toList with
  | .error e =>
    { url := none, method := "", data := none, headers := none,
      err := some (.request ("error parsing url " ++ goQuote path ++ ": " ++ e)) }
  | .ok u =>
    { url := some u, method := method, data := some "",
      headers := some [("Accept", "application/json"), ("User-Agent", "quest/v1")],
      err := none }

def Get (path : String) : Request := New "GET" path

def Post (path : String) : Request := New "POST" path

def Put (path : String) : Request := New "PUT" path

def Delete (path : String) : Request := New "DELETE" path

/-- `(*Next).New(method, path)` (next.go lines 12-18). -/
def Next.New (n : Next) (method path : String) : Request :=
  let req := Quest.New method path
  if req.err = none then { req with err := n.err } else req

def Next.Get (n : Next) (path : String) : Request := n.New "GET" path

def Next.Post (n : Next) (path : String) : Request := n.New "POST" path

def Next.Put (n : Next) (path : String) : Request := n.New "PUT" path

def Next.Delete (n : Next) (path : String) : Request := n.New "DELETE" path

/-! ## Builder operations (quest.go lines 117-192)

Every operation first checks `r.err` and returns `r` unchanged if it is
set; otherwise it dereferences the fields it needs (`none` = nil fault)
and mutates. -/

/-- `Request.Header` (quest.go lines 117-123). -/
def Request.header (r : Request) (key value : String) : Option Request :=
  if r.err.isSome then some r
  else
    match r.headers with
    | none => none
    | some hs => some { r with headers := some (insertHeader hs key value) }

/-- `Request.BasicAuth` (quest.go lines 126-133). -/
def Request.basicAuth (r : Request) (username password : String) : Option Request :=
  if r.err.isSome then some r
  else
    match r.headers with
    | none => none
    | some hs =>
      let auth := username ++ ":" ++ password
      let hs' := insertHeader hs "Authorization" ("Basic " ++ base64Encode auth)
      some { r with headers := some hs' }

/-- `Request.QueryParam` (quest.go lines 136-144). -/
def Request.queryParam (r : Request) (key value : String) : Option Request :=
  if r.err.isSome then some r
  else
    match r.url with
    | none => none
    | some u =>
      let q := parseQuery u.query ++ [(key, value)]
      some { r with url := some { u with query := encodeQuery q } }

/-- `Request.Param` (quest.go lines 147-159). -/
def Request.param (r : Request) (key value : String) : Option Request :=
  if r.err.isSome then some r
  else
    match r.url with
    | none => none
    | some u =>
      let path := strReplaceFirst u.render (":" ++ key) value
      match parseURL path.toList with
      | .error e => some { r with err := some (.request e) }
      | .ok u' => some { r with url := some u' }

/-- `Request.Body` (quest.go lines 162-168). -/
def Request.body (r : Request) (value : String) : Option Request :=
  if r.err.isSome then some r else some { r with data := some value }

/-- `Request.JSONBody` (quest.go lines 171-182).  The JSON collaborator's
outcome for the given value (`json.Marshal`) is passed in as `marshalled`. -/
def Request.jsonBody (r : Request) (marshalled : Except String String) : Option Request :=
  if r.err.isSome then some r
  else
    match marshalled with
    | .error e => some { r with err := some (.request e) }
    | .ok b => do
      let r1 ← r.header "Content-Type" "application/json"
      r1.body b

/-- `Request.MultipartBody` (quest.go lines 185-192).  Note the source
sets the Content-Type header *before* copying `form.Err` into `r.err`,
and only then calls `r.Body`, which re-checks `r.err`. -/
def Request.multipartBody (r : Request) (form : Form) : Option Request :=
  if r.err.isSome then some r
  else do
    let r1 ← r.header "Content-Type" form.contentType
    let r2 := { r1 with err := form.err }
    r2.body form.buffer

/-! ## Dispatch (`Request.Send`, quest.go lines 195-250)

The transport collaborator (`client.Do`) is a function from method, URL
string, headers and body to either an error message or a status / header
/ body triple.  `send` also returns whether the transport was invoked.
`http.NewRequest`'s own method validation is modelled by `validMethod`. -/

def Transport : Type :=
  String → String → List (String × String) → String →
    Except String (Int × List (String × String) × String)

/-- RFC 7230 token characters (what `http.NewRequest` accepts in a method). -/
def isTokenChar (c : Char) : Bool :=
  c.isAlpha || c.isDigit ||
    ("!#$%&*+-.^_|~".toList.contains c) || c.toNat = 39 || c.toNat = 96

def validMethod (m : String) : Bool :=
  m.toList ≠ [] && m.toList.all isTokenChar

/-- The zero `http.Response{}` built on the short-circuit paths of `Send`:
status 0, no headers, nil body. -/
def emptyHttpResp : HttpResp := ⟨0, [], none⟩

/-- `Request.Send` (quest.go lines 195-250).  Result: the `Response` plus
a flag recording whether the transport collaborator was invoked. -/
def Request.send (r : Request) (tr : Transport) : Option (Response × Bool) :=
  if r.err.isSome then some (⟨some emptyHttpResp, r⟩, false)
  else
    match r.url, r.data, r.headers with
    | some u, some d, some hs =>
      if !validMethod r.method then
        some (⟨some emptyHttpResp,
          { r with err := some (.request ("net/http: invalid method " ++ goQuote r.method)) }⟩,
          false)
      else
        match tr r.method u.render hs d with
        | .error e => some (⟨none, { r with err := some (.request e) }⟩, true)
        | .ok (st, rh, bd) => some (⟨some ⟨st, rh, some ⟨bd, 0⟩⟩, r⟩, true)
    | _, _, _ => none

/-! ## Response operations (quest.go lines 253-392)

Each operation first checks `r.req.err` and no-ops if it is set;
otherwise it dereferences the embedded `*http.Response` (and, where it
reads the body, the `Body` stream) — `none` models the nil fault.
`into`-style out-parameters are values handed back to the caller; they do
not feed back into the chain state and are not part of the state. -/

/-- Set the request failure slot of a response, as
`r.req.err = handleResponseError(err, r.req, r)` does. -/
def Response.fail (r : Response) (msg : String) : Response :=
  { r with req := { r.req with err := some (.response msg) } }

/-- `Response.ExpectSuccess` (quest.go lines 265-275). -/
def Response.expectSuccess (r : Response) : Option Response :=
  if r.req.err.isSome then some r
  else
    match r.resp with
    | none => none
    | some hr =>
      if hr.statusCode < 200 || hr.statusCode ≥ 300 then
        some (r.fail ("Invalid StatusCode. Expected to be in 200 range, got " ++
          "'" ++ toString hr.statusCode ++ "'"))
      else some r

/-- `Response.ExpectStatusCode` (quest.go lines 278-288). -/
def Response.expectStatusCode (r : Response) (code : Int) : Option Response :=
  if r.req.err.isSome then some r
  else
    match r.resp with
    | none => none
    | some hr =>
      if hr.statusCode ≠ code then
        some (r.fail ("Invalid StatusCode. Expected to be " ++
          "'" ++ toString code ++ "', got " ++ "'" ++ toString hr.statusCode ++ "'"))
      else some r

/-- `Response.ExpectHeader` (quest.go lines 291-301). -/
def Response.expectHeader (r : Response) (key value : String) : Option Response :=
  if r.req.err.isSome then some r
  else
    match r.resp with
    | none => none
    | some hr =>
      let actual := headerGet hr.headers key
      if !strContains actual value then
        some (r.fail ("Invalid Header. Expected " ++ goQuote key ++
          " header to be " ++ goQuote value ++ ", got " ++ goQuote actual))
      else some r

/-- The MIME alias table of `Response.ExpectType` (quest.go lines 310-325). -/
def resolveAlias (value : String) : String :=
  if value = "html" then "text/html"
  else if value = "json" then "application/json"
  else if value = "xml" then "application/xml"
  else if value = "text" then "text/plain"
  else if value = "urlencoded" then "application/x-www-form-urlencoded"
  else if value = "form" then "application/x-www-form-urlencoded"
  else if value = "form-data" then "application/x-www-form-urlencoded"
  else value

/-- `Response.ExpectType` (quest.go lines 304-328). -/
def Response.expectType (r : Response) (value : String) : Option Response :=
  if r.req.err.isSome then some r
  else r.expectHeader "Content-Type" (resolveAlias value)

/-- `Response.GetHeader` (quest.go lines 331-337); the value copied into
`*into` leaves the chain state unchanged. -/
def Response.getHeader (r : Response) (key : String) : Option Response :=
  if r.req.err.isSome then some r
  else
    match r.resp with
    | none => none
    | some _ => some r

/-- Close the body stream of a response once (`r.Response.Body.Close()`). -/
def Response.closeBody (r : Response) : Option Response :=
  match r.resp with
  | none => none
  | some hr =>
    match hr.body with
    | none => none
    | some st =>
      some { r with resp := some { hr with body := some { st with closes := st.closes + 1 } } }

/-- `Response.GetBody` (quest.go lines 355-364): drains the stream into
the out-parameter and closes it (the `defer`red `Close`). -/
def Response.getBody (r : Response) : Option Response :=
  if r.req.err.isSome then some r else r.closeBody

/-- `Response.GetJSON` (quest.go lines 367-378): decodes the stream
through the JSON collaborator, whose outcome for this body is passed in
as `decoded`; the stream is closed (`defer`) on both outcomes. -/
def Response.getJSON (r : Response) (decoded : Except String Unit) : Option Response :=
  if r.req.err.isSome then some r
  else do
    let r1 ← r.closeBody
    match decoded with
    | .error e => some (r1.fail e)
    | .ok _ => some r1

/-- `Response.Proxy` (quest.go lines 253-262): copies the stream to an
external sink; the copy outcome is passed in as `copied`.  The stream is
not closed. -/
def Response.proxy (r : Response) (copied : Except String Unit) : Option Response :=
  if r.req.err.isSome then some r
  else
    match r.resp with
    | none => none
    | some hr =>
      match hr.body with
      | none => none
      | some _ =>
        match copied with
        | .error e => some (r.fail e)
        | .ok _ => some r

/-- `Response.Next` (quest.go lines 382-384). -/
def Response.next (r : Response) : Next := ⟨r.req.err⟩

/-- `Response.Done` (quest.go lines 390-392): returns the recorded
failure; in this revision it does not touch the body stream. -/
def Response.done (r : Response) : Option Err := r.req.err

/-- How many times the stream backing a response has been closed
(0 when dispatch never attached a stream). -/
def Response.closes (r : Response) : Nat :=
  match r.resp with
  | some hr =>
    match hr.body with
    | some st => st.closes
    | none => 0
  | none => 0

/-! ## Operation sequences

The public chained operations as syntax, so that claims quantified over
"every sequence of operations" can be stated.  Collaborator outcomes
(`json.Marshal`, the JSON decoder, `io.Copy`) travel as payloads of the
corresponding operation. -/

inductive ReqOp where
  | header (key value : String)
  | basicAuth (username password : String)
  | queryParam (key value : String)
  | param (key value : String)
  | body (value : String)
  | jsonBody (marshalled : Except String String)
  | multipartBody (form : Form)
  deriving Repr

inductive RespOp where
  | expectSuccess
  | expectStatusCode (code : Int)
  | expectHeader (key value : String)
  | expectType (value : String)
  | getHeader (key : String)
  | getBody
  | getJSON (decoded : Except String Unit)
  | proxy (copied : Except String Unit)
  deriving Repr

def applyReqOp (op : ReqOp) (r : Request) : Option Request :=
  match op with
  | .header k v => r.header k v
  | .basicAuth u p => r.basicAuth u p
  | .queryParam k v => r.queryParam k v
  | .param k v => r.param k v
  | .body v => r.body v
  | .jsonBody m => r.jsonBody m
  | .multipartBody f => r.multipartBody f

def applyReqOps (ops : List ReqOp) (r : Request) : Option Request :=
  match ops with
  | [] => some r
  | op :: rest => (applyReqOp op r).bind (applyReqOps rest)

def applyRespOp (op : RespOp) (r : Response) : Option Response :=
  match op with
  | .expectSuccess => r.expectSuccess
  | .expectStatusCode c => r.expectStatusCode c
  | .expectHeader k v => r.expectHeader k v
  | .expectType v => r.expectType v
  | .getHeader k => r.getHeader k
  | .getBody => r.getBody
  | .getJSON d => r.getJSON d
  | .proxy c => r.proxy c

def applyRespOps (ops : List RespOp) (r : Response) : Option Response :=
  match ops with
  | [] => some r
  | op :: rest => (applyRespOp op r).bind (applyRespOps rest)

/-! ## Short-circuit lemmas -/

theorem applyReqOp_of_err (op : ReqOp) (r : Request) (e : Err) (h : r.err = some e) :
    applyReqOp op r = some r := by
  cases op <;>
    simp [applyReqOp, Request.header, Request.basicAuth, Request.queryParam,
      Request.param, Request.body, Request.jsonBody, Request.multipartBody, h]

theorem applyReqOps_of_err (ops : List ReqOp) (r : Request) (e : Err) (h : r.err = some e) :
    applyReqOps ops r = some r := by
  induction ops with
  | nil => rfl
  | cons op rest ih => simp [applyReqOps, applyReqOp_of_err op r e h, ih]

theorem applyRespOp_of_err (op : RespOp) (r : Response) (e : Err)
    (h : r.req.err = some e) : applyRespOp op r = some r := by
  cases op <;>
    simp [applyRespOp, Response.expectSuccess, Response.expectStatusCode,
      Response.expectHeader, Response.expectType, Response.getHeader,
      Response.getBody, Response.getJSON, Response.proxy, h]

theorem applyRespOps_of_err (ops : List RespOp) (r : Response) (e : Err)
    (h : r.req.err = some e) : applyRespOps ops r = some r := by
  induction ops with
  | nil => rfl
  | cons op rest ih => simp [applyRespOps, applyRespOp_of_err op r e h, ih]

theorem send_of_err (r : Request) (e : Err) (tr : Transport) (h : r.err = some e) :
    r.send tr = some (⟨some emptyHttpResp, r⟩, false) := by
  simp [Request.send, h]

/-! ## Example values used by the witnesses -/

/-- A transport answering 200 / `application/json` / body `"ok"`. -/
def trOk : Transport := fun _ _ _ _ =>
  .ok (200, [("Content-Type", "application/json")], "ok")

/-- A request whose construction already failed (shape of `New` on an
unparseable path, with a collaborator error planted in the slot). -/
def failedReq : Request :=
  { url := none, method := "", data := none, headers := none,
    err := some (.external "boom") }

/-! ## Claims -/

/-- C1: For every PendingRequest and every sequence of builder and
response operations applied to it, once an error has been recorded in the
request's failure slot, each subsequent operation returns the same object
with target, method, headers, and body unchanged, and the error returned
by the terminal `Done` equals the first error that was recorded (later
failures never replace it): the builder operations are the identity, `Send`
skips dispatch and wraps the unchanged request, the response operations
are the identity, and `Done` yields exactly the recorded error. -/
theorem c1_first_failure_is_final (r : Request) (e : Err) (ops : List ReqOp)
    (rops : List RespOp) (tr : Transport) (h : r.err = some e) :
    applyReqOps ops r = some r ∧
    r.send tr = some (⟨some emptyHttpResp, r⟩, false) ∧
    applyRespOps rops ⟨some emptyHttpResp, r⟩ = some ⟨some emptyHttpResp, r⟩ ∧
    Response.done ⟨some emptyHttpResp, r⟩ = some e :=
  ⟨applyReqOps_of_err ops r e h, send_of_err r e tr h,
   applyRespOps_of_err rops ⟨some emptyHttpResp, r⟩ e h, h⟩

theorem c1_first_failure_is_final_witness :
    applyReqOps [ReqOp.header "X" "1", ReqOp.body "b"] failedReq = some failedReq ∧
    failedReq.send trOk = some (⟨some emptyHttpResp, failedReq⟩, false) ∧
    applyRespOps [RespOp.expectSuccess, RespOp.getBody] ⟨some emptyHttpResp, failedReq⟩ =
      some ⟨some emptyHttpResp, failedReq⟩ ∧
    Response.done ⟨some emptyHttpResp, failedReq⟩ = some (.external "boom") :=
  c1_first_failure_is_final failedReq (.external "boom")
    [ReqOp.header "X" "1", ReqOp.body "b"]
    [RespOp.expectSuccess, RespOp.getBody] trOk rfl

/-- C2: For every request started through a Continuation (`Next.New` or
its Get/Post/Put/Delete forms): if the new request's own construction
failed, the new request keeps its own construction error (it is exactly
the ordinary factory's result); otherwise the Continuation's inherited
failure becomes the new request's failure (the request is the factory's
result with only the failure slot overwritten), so `Done` at the end of
the new chain surfaces the original chain's failure even when no
operation of the new chain itself failed. -/
theorem c2_continuation_inherits_failure (n : Next) (method path : String)
    (tr : Transport) (rops : List RespOp) :
    ((New method path).err.isSome → n.New method path = New method path) ∧
    ((New method path).err = none →
      n.New method path = { New method path with err := n.err }) ∧
    ∀ e : Err, (New method path).err = none → n.err = some e →
      (n.New method path).send tr = some (⟨some emptyHttpResp, n.New method path⟩, false) ∧
      applyRespOps rops ⟨some emptyHttpResp, n.New method path⟩ =
        some ⟨some emptyHttpResp, n.New method path⟩ ∧
      Response.done ⟨some emptyHttpResp, n.New method path⟩ = some e := by
  refine ⟨?_, ?_, ?_⟩
  · intro h
    cases hc : (New method path).err with
    | none => simp [hc] at h
    | some e0 => simp [Next.New, hc]
  · intro h
    simp [Next.New, h]
  · intro e h he
    have h2 : (n.New method path).err = some e := by simp [Next.New, h, he]
    exact ⟨send_of_err _ e tr h2,
      applyRespOps_of_err rops ⟨some emptyHttpResp, n.New method path⟩ e h2, h2⟩

theorem c2_continuation_inherits_failure_witness :
    (Next.New ⟨some (Err.external "upstream failed")⟩ "GET" "http://x/a" =
      { New "GET" "http://x/a" with err := some (Err.external "upstream failed") }) ∧
    Response.done
        ⟨some emptyHttpResp, Next.New ⟨some (Err.external "upstream failed")⟩ "GET" "http://x/a"⟩ =
      some (Err.external "upstream failed") :=
  have T := c2_continuation_inherits_failure ⟨some (Err.external "upstream failed")⟩
    "GET" "http://x/a" trOk [RespOp.expectSuccess]
  ⟨T.2.1 rfl, (T.2.2 (Err.external "upstream failed") rfl rfl).2.2⟩

/-- A transport that fails every call (used to exhibit transport
independence of short-circuited dispatch). -/
def trErr : Transport := fun _ _ _ _ => .error "network unreachable"

/-- C3: For every PendingRequest whose failure slot is already set, `Send`
does not invoke the transport at all (the invocation flag is `false` and
the result does not depend on the transport) and returns a
PendingResponse with an empty status and body (`emptyHttpResp`, status 0,
no headers, nil stream) whose terminal `Done` yields that same
pre-existing failure. -/
theorem c3_send_short_circuits (r : Request) (e : Err) (tr tr' : Transport)
    (h : r.err = some e) :
    r.send tr = some (⟨some emptyHttpResp, r⟩, false) ∧
    r.send tr = r.send tr' ∧
    Response.done ⟨some emptyHttpResp, r⟩ = some e ∧
    emptyHttpResp = ⟨0, [], none⟩ :=
  ⟨send_of_err r e tr h,
   by rw [send_of_err r e tr h, send_of_err r e tr' h], h, rfl⟩

theorem c3_send_short_circuits_witness :
    (New "GET" "bad\nurl").send trOk =
      some (⟨some emptyHttpResp, New "GET" "bad\nurl"⟩, false) ∧
    (New "GET" "bad\nurl").send trOk = (New "GET" "bad\nurl").send trErr ∧
    Response.done ⟨some emptyHttpResp, New "GET" "bad\nurl"⟩ =
      some (Err.request
        "error parsing url \"bad\nurl\": net/url: invalid control character in URL") ∧
    emptyHttpResp = ⟨0, [], none⟩ :=
  c3_send_short_circuits (New "GET" "bad\nurl")
    (Err.request
      "error parsing url \"bad\nurl\": net/url: invalid control character in URL")
    trOk trErr rfl

/-- The transport of the repository's own test chain
`Get(ts.URL + "?bad=true").Send().ExpectStatusCode(400).Done()`
("test never closing the response.body", quest_test.go): answers 400 with
a text body. -/
def c4tr : Transport := fun _ _ _ _ =>
  .ok (400, [("Content-Type", "text/plain; charset=utf-8")], "Hello, world!")

/-- C4 (code bug): the claim demands the stream backing a PendingResponse
be closed exactly once on every exit path, in particular once the chain
reaches the terminal `Done`.  The code (first revision: `Done` at
quest.go lines 390-392 returns the error without touching the body;
only `GetBody`/`GetJSON` close) violates this: the chain of the
repository's own test — dispatch succeeds, `ExpectStatusCode(400)`
passes, `Done` returns nil — reaches the terminal operation with the
stream closed zero times, not once. -/
theorem c4_stream_never_closed :
    (((Get "http://x/a?bad=true").send c4tr).bind
        (fun p => applyRespOps [RespOp.expectStatusCode 400] p.1)).map
      (fun resp => (Response.done resp, Response.closes resp)) = some (none, 0) := by
  rfl

/-! ## Characterisation of `strings.Replace(s, pat, rep, 1)` -/

theorem isPref_iff (pat s : List Char) : isPref pat s = true ↔ ∃ b, s = pat ++ b := by
  induction pat generalizing s with
  | nil => simp [isPref]
  | cons p ps ih =>
    cases s with
    | nil => simp [isPref]
    | cons c t =>
      simp only [isPref, Bool.and_eq_true, decide_eq_true_eq, ih, List.cons_append,
        List.cons_eq_cons]
      constructor
      · rintro ⟨rfl, b, rfl⟩; exact ⟨b, rfl, rfl⟩
      · rintro ⟨b, rfl, rfl⟩; exact ⟨rfl, b, rfl⟩

theorem replaceFirst_not_contains (s pat rep : List Char)
    (h : containsSub pat s = false) : replaceFirst s pat rep = s := by
  induction s with
  | nil =>
    simp only [containsSub] at h
    simp [replaceFirst, h]
  | cons c t ih =>
    simp only [containsSub, Bool.or_eq_false_iff] at h
    simp [replaceFirst, h.1, ih h.2]

theorem replaceFirst_first_occurrence (pat rep s : List Char)
    (h : containsSub pat s = true) :
    ∃ a b, s = a ++ pat ++ b ∧ replaceFirst s pat rep = a ++ rep ++ b ∧
      ∀ a₁ b₁, s = a₁ ++ pat ++ b₁ → a.length ≤ a₁.length := by
  induction s with
  | nil =>
    simp only [containsSub] at h
    have hp : ∃ b, ([] : List Char) = pat ++ b := (isPref_iff pat []).1 h
    obtain ⟨b, hb⟩ := hp
    have hpat : pat = [] := by
      cases pat with
      | nil => rfl
      | cons x xs => simp at hb
    subst hpat
    refine ⟨[], [], rfl, by simp [replaceFirst, isPref], fun a₁ b₁ _ => Nat.zero_le _⟩
  | cons c t ih =>
    cases hp : isPref pat (c :: t) with
    | true =>
      obtain ⟨b, hb⟩ := (isPref_iff pat (c :: t)).1 hp
      refine ⟨[], b, by simpa using hb, ?_, fun a₁ b₁ _ => Nat.zero_le _⟩
      simp only [replaceFirst, hp, if_true]
      rw [hb, List.drop_append_of_le_length (Nat.le_refl _), List.drop_length]
      simp
    | false =>
      have ht : containsSub pat t = true := by
        simp only [containsSub, hp, Bool.false_or] at h
        exact h
      obtain ⟨a, b, hs, hr, hmin⟩ := ih ht
      refine ⟨c :: a, b, by simp [hs], ?_, ?_⟩
      · simp only [replaceFirst, hp, Bool.false_eq_true, if_false, hr]
        simp
      · intro a₁ b₁ h₁
        cases a₁ with
        | nil =>
          exfalso
          have : isPref pat (c :: t) = true :=
            (isPref_iff pat (c :: t)).2 ⟨b₁, by simpa using h₁⟩
          rw [hp] at this
          exact Bool.false_ne_true this
        | cons c₁ a₁' =>
          simp only [List.cons_append, List.cons_eq_cons] at h₁
          have := hmin a₁' b₁ h₁.2
          simpa [List.length_cons] using Nat.succ_le_succ this

theorem strReplaceFirst_of_not_contains (s pat rep : String)
    (h : containsSub pat.toList s.toList = false) : strReplaceFirst s pat rep = s := by
  unfold strReplaceFirst
  rw [replaceFirst_not_contains _ _ _ h]
  cases s
  rfl

/-- C5 counterexample: on `GET("http://x:77/:77")` the path `"/:77"`
contains the placeholder `":77"`, and the claim predicts the path becomes
the path with its first `":77"` replaced, i.e. `"/42"`; but
`Param("77","42")` leaves the path unchanged at `"/:77"` (the replacement
hit the port in the host component, which became `"x42"`), with no
failure recorded. -/
theorem c5_param_counterexample :
    ((New "GET" "http://x:77/:77").param "77" "42").map
        (fun r => (r.url.map URL.path, r.url.map URL.host, r.err)) =
      some (some "/:77", some "x42", none) ∧
    strContains "/:77" ":77" = true ∧
    strReplaceFirst "/:77" ":77" "42" = "/42" ∧
    ("/:77" : String) ≠ "/42" := by
  refine ⟨rfl, rfl, rfl, by decide⟩

/-- C5 (amended): for every non-failed PendingRequest, `Param(key, value)`
replaces the first literal occurrence of the token `:key` in the
*serialized URL string* — not specifically in the path: an occurrence in
an earlier component (such as a host port) is the one replaced — and
fails with a build-time error exactly when the resulting string is not a
syntactically valid URL; when the key has no matching placeholder
anywhere in the serialized URL, the request (path included) is left
unchanged and no failure is recorded. -/
theorem c5_param_amended (r : Request) (u : URL) (k v : String)
    (h : r.err = none) (hu : r.url = some u)
    (hwf : parseURL u.render.toList = .ok u) :
    (containsSub (":" ++ k).toList u.render.toList = false → r.param k v = some r) ∧
    (containsSub (":" ++ k).toList u.render.toList = true →
      ∃ a b, u.render.toList = a ++ (":" ++ k).toList ++ b ∧
        (strReplaceFirst u.render (":" ++ k) v).toList = a ++ v.toList ++ b ∧
        ∀ a₁ b₁, u.render.toList = a₁ ++ (":" ++ k).toList ++ b₁ →
          a.length ≤ a₁.length) ∧
    (∀ u', parseURL (strReplaceFirst u.render (":" ++ k) v).toList = .ok u' →
      r.param k v = some { r with url := some u' }) ∧
    (∀ msg, parseURL (strReplaceFirst u.render (":" ++ k) v).toList = .error msg →
      r.param k v = some { r with err := some (.request msg) }) := by
  have hparam : r.param k v =
      (match parseURL (strReplaceFirst u.render (":" ++ k) v).toList with
       | .error e => some { r with err := some (.request e) }
       | .ok u' => some { r with url := some u' }) := by
    simp [Request.param, h, hu]
  refine ⟨?_, ?_, ?_, ?_⟩
  · intro hc
    rw [hparam, strReplaceFirst_of_not_contains _ _ _ hc, hwf]
    cases r
    simp at hu
    simp [hu]
  · intro hc
    exact replaceFirst_first_occurrence _ _ _ hc
  · intro u' hok
    rw [hparam, hok]
  · intro msg herr
    rw [hparam, herr]

theorem c5_param_amended_witness :
    (New "GET" "http://x/:id").param "id" "42" =
      some { New "GET" "http://x/:id" with url := some ⟨some "http", "x", "/42", ""⟩ } ∧
    (New "GET" "http://x/:id").param "zz" "42" = some (New "GET" "http://x/:id") :=
  have T := c5_param_amended (New "GET" "http://x/:id")
    ⟨some "http", "x", "/:id", ""⟩ "id" "42" rfl rfl rfl
  have T2 := c5_param_amended (New "GET" "http://x/:id")
    ⟨some "http", "x", "/:id", ""⟩ "zz" "42" rfl rfl rfl
  ⟨T.2.2.1 ⟨some "http", "x", "/42", ""⟩ rfl, T2.1 rfl⟩

/-- A multipart form carrying a deferred collaborator error. -/
def c6form : Form :=
  ⟨"ENCODED", "questboundary", some (.external "multipart: file encode failed")⟩

/-- A fully-built multipart form with no error. -/
def c6formOk : Form := ⟨"ENCODEDOK", "b2", none⟩

/-- The default header map of a freshly constructed request. -/
def defaultHeaders : List (String × String) :=
  [("Accept", "application/json"), ("User-Agent", "quest/v1")]

/-- C6 counterexample: the claim says that when the form carries an
error, target, method, headers, and body are not otherwise changed; but
`MultipartBody` sets the Content-Type header *before* recording the
form's error, so on a fresh request the header map gains a Content-Type
entry even in the failure case. -/
theorem c6_multipart_counterexample :
    ((New "POST" "http://x/up").multipartBody c6form).map
        (fun r => (r.headers, r.err, r.data)) =
      some (some (defaultHeaders ++
              [("Content-Type", "multipart/form-data; boundary=questboundary")]),
            some (Err.external "multipart: file encode failed"), some "") ∧
    (New "POST" "http://x/up").headers = some defaultHeaders ∧
    defaultHeaders ++
        [("Content-Type", "multipart/form-data; boundary=questboundary")] ≠
      defaultHeaders :=
  ⟨rfl, rfl, by decide⟩

/-- C6 (amended): for every non-failed PendingRequest and every multipart
form value: the Content-Type header is always set from the form's
boundary-bearing content-type value first; then, if the form carries a
deferred error, that error becomes the request's failure and the target,
method, and body are unchanged (but the header map keeps the new
Content-Type entry); otherwise the body is set to the form's encoded
bytes. -/
theorem c6_multipart_amended (r : Request) (hs : List (String × String))
    (form : Form) (h : r.err = none) (hh : r.headers = some hs) :
    (∀ e, form.err = some e →
      r.multipartBody form =
        some { r with
               headers := some (insertHeader hs "Content-Type" form.contentType),
               err := some e }) ∧
    (form.err = none →
      r.multipartBody form =
        some { r with
               headers := some (insertHeader hs "Content-Type" form.contentType),
               data := some form.buffer }) := by
  constructor
  · intro e he
    simp [Request.multipartBody, Request.header, Request.body, h, hh, he]
  · intro he
    simp [Request.multipartBody, Request.header, Request.body, h, hh, he]

theorem c6_multipart_amended_witness :
    (New "POST" "http://x/up").multipartBody c6form =
      some { New "POST" "http://x/up" with
             headers := some (insertHeader defaultHeaders "Content-Type" c6form.contentType),
             err := some (Err.external "multipart: file encode failed") } ∧
    (New "POST" "http://x/up").multipartBody c6formOk =
      some { New "POST" "http://x/up" with
             headers := some (insertHeader defaultHeaders "Content-Type" c6formOk.contentType),
             data := some c6formOk.buffer } :=
  have T := c6_multipart_amended (New "POST" "http://x/up") defaultHeaders c6form rfl rfl
  have T2 := c6_multipart_amended (New "POST" "http://x/up") defaultHeaders c6formOk rfl rfl
  ⟨T.1 (Err.external "multipart: file encode failed") rfl, T2.2 rfl⟩

/-- A dispatched response with a parameterised JSON content type. -/
def c7resp : Response :=
  ⟨some ⟨200, [("Content-Type", "application/json; charset=utf-8")], some ⟨"ok", 0⟩⟩,
   New "GET" "http://x/a"⟩

/-- C7: For every non-failed PendingResponse, `ExpectType(alias)` resolves
the alias through the fixed table (html→text/html, json→application/json,
xml→application/xml, text→text/plain, urlencoded/form/form-data→
application/x-www-form-urlencoded; any other value passes through
literally) and then succeeds (returns the response unchanged, no failure)
if and only if the response's Content-Type header contains the resolved
value as a substring. -/
theorem c7_expectType_alias_substring (r : Response) (hr : HttpResp) (v : String)
    (h : r.req.err = none) (hd : r.resp = some hr) :
    (r.expectType v = some r ↔
      strContains (headerGet hr.headers "Content-Type") (resolveAlias v) = true) ∧
    resolveAlias "html" = "text/html" ∧
    resolveAlias "json" = "application/json" ∧
    resolveAlias "xml" = "application/xml" ∧
    resolveAlias "text" = "text/plain" ∧
    resolveAlias "urlencoded" = "application/x-www-form-urlencoded" ∧
    resolveAlias "form" = "application/x-www-form-urlencoded" ∧
    resolveAlias "form-data" = "application/x-www-form-urlencoded" ∧
    (v ∉ ["html", "json", "xml", "text", "urlencoded", "form", "form-data"] →
      resolveAlias v = v) := by
  refine ⟨?_, rfl, rfl, rfl, rfl, rfl, rfl, rfl, ?_⟩
  · cases hc : strContains (headerGet hr.headers "Content-Type") (resolveAlias v) with
    | true => simp [Response.expectType, Response.expectHeader, h, hd, hc]
    | false =>
      simp only [Response.expectType, Response.expectHeader, h, hd, Option.isSome_none,
        Bool.false_eq_true, if_false, hc, Bool.not_false, if_true]
      constructor
      · intro heq
        have h2 := congrArg (fun x => x.req.err) (Option.some.inj heq)
        simp [Response.fail, h] at h2
      · intro hcontra
        exact absurd hcontra (by simp)
  · intro hv
    simp only [List.mem_cons, List.not_mem_nil, or_false, not_or] at hv
    obtain ⟨h1, h2, h3, h4, h5, h6, h7⟩ := hv
    simp [resolveAlias, h1, h2, h3, h4, h5, h6, h7]

theorem c7_expectType_alias_substring_witness :
    c7resp.expectType "json" = some c7resp :=
  have T := c7_expectType_alias_substring c7resp
    ⟨200, [("Content-Type", "application/json; charset=utf-8")], some ⟨"ok", 0⟩⟩
    "json" rfl rfl
  T.1.mpr rfl

/-! ## Substring facts used for the error-message claims -/

theorem isPref_append (l rest : List Char) : isPref l (l ++ rest) = true := by
  induction l with
  | nil => rfl
  | cons c t ih => simp [isPref, ih]

theorem containsSub_of_isPref (pat s : List Char) (h : isPref pat s = true) :
    containsSub pat s = true := by
  cases s with
  | nil => simpa [containsSub] using h
  | cons c t => simp [containsSub, h]

theorem containsSub_append_mid (a b c : List Char) :
    containsSub b (a ++ b ++ c) = true := by
  induction a with
  | nil => exact containsSub_of_isPref _ _ (by simpa using isPref_append b c)
  | cons x xs ih =>
    simp only [List.cons_append, containsSub, Bool.or_eq_true]
    right
    simpa [List.append_assoc] using ih

/-- A string built as `pre ++ mid ++ post` contains `mid` as a substring. -/
theorem strContains_append_mid (pre mid post : String) :
    strContains (pre ++ mid ++ post) mid = true := by
  unfold strContains
  have : (pre ++ mid ++ post).toList = pre.toList ++ mid.toList ++ post.toList := by
    simp [String.toList, String.data_append]
  rw [this]
  exact containsSub_append_mid _ _ _

/-- A response with status 404 and no recorded failure. -/
def c8resp : Response :=
  ⟨some ⟨404, [("Content-Type", "text/plain")], some ⟨"not found", 0⟩⟩,
   New "GET" "http://x/a"⟩

/-- C8: For every non-failed PendingResponse and every integer code,
`ExpectStatusCode(code)` records a failure if and only if the response's
status code differs from `code`, and the recorded post-dispatch error's
message contains the decimal renderings of both the expected and the
actual status code. -/
theorem c8_expectStatusCode_message (r : Response) (hr : HttpResp) (code : Int)
    (h : r.req.err = none) (hd : r.resp = some hr) :
    (hr.statusCode = code → r.expectStatusCode code = some r) ∧
    (hr.statusCode ≠ code →
      ∃ m, r.expectStatusCode code = some (r.fail m) ∧
        (r.fail m).req.err = some (.response m) ∧
        strContains m (toString code) = true ∧
        strContains m (toString hr.statusCode) = true) := by
  constructor
  · intro heq
    simp [Response.expectStatusCode, h, hd, heq]
  · intro hne
    refine ⟨"Invalid StatusCode. Expected to be " ++ "'" ++ toString code ++ "', got " ++
      "'" ++ toString hr.statusCode ++ "'", ?_, by simp [Response.fail], ?_, ?_⟩
    · simp [Response.expectStatusCode, h, hd, hne]
    · have := strContains_append_mid ("Invalid StatusCode. Expected to be " ++ "'")
        (toString code) ("', got " ++ "'" ++ toString hr.statusCode ++ "'")
      simpa [String.append_assoc] using this
    · have := strContains_append_mid
        ("Invalid StatusCode. Expected to be " ++ "'" ++ toString code ++ "', got " ++ "'")
        (toString hr.statusCode) "'"
      simpa [String.append_assoc] using this

theorem c8_expectStatusCode_message_witness :
    ∃ m, c8resp.expectStatusCode 200 = some (c8resp.fail m) ∧
      (c8resp.fail m).req.err = some (.response m) ∧
      strContains m (toString (200 : Int)) = true ∧
      strContains m (toString (404 : Int)) = true :=
  have T := c8_expectStatusCode_message c8resp
    ⟨404, [("Content-Type", "text/plain")], some ⟨"not found", 0⟩⟩ 200 rfl rfl
  T.2 (by decide)

/-- A response with status 204 and no recorded failure. -/
def c9resp : Response :=
  ⟨some ⟨204, [], some ⟨"", 0⟩⟩, New "GET" "http://x/b"⟩

/-- C9: For every non-failed PendingResponse, `ExpectSuccess` records a
failure if and only if the response's status code is outside the
half-open interval [200, 300); for a status in that range the response is
returned unchanged with no failure. -/
theorem c9_expectSuccess_range (r : Response) (hr : HttpResp)
    (h : r.req.err = none) (hd : r.resp = some hr) :
    (200 ≤ hr.statusCode ∧ hr.statusCode < 300 → r.expectSuccess = some r) ∧
    (hr.statusCode < 200 ∨ 300 ≤ hr.statusCode →
      ∃ m, r.expectSuccess = some (r.fail m) ∧
        (r.fail m).req.err = some (.response m)) := by
  constructor
  · rintro ⟨h1, h2⟩
    have hx1 : ¬hr.statusCode < 200 := by omega
    have hx2 : ¬hr.statusCode ≥ 300 := by omega
    simp [Response.expectSuccess, h, hd, hx1, hx2]
  · intro hout
    refine ⟨"Invalid StatusCode. Expected to be in 200 range, got " ++ "'" ++
      toString hr.statusCode ++ "'", ?_, by simp [Response.fail]⟩
    have hx : hr.statusCode < 200 ∨ hr.statusCode ≥ 300 := by omega
    rcases hx with hx | hx <;> simp [Response.expectSuccess, h, hd, hx]

theorem c9_expectSuccess_range_witness :
    c9resp.expectSuccess = some c9resp :=
  have T := c9_expectSuccess_range c9resp ⟨204, [], some ⟨"", 0⟩⟩ rfl rfl
  T.1 ⟨by decide, by decide⟩

/-- C10: For every request created by `New` with an unparseable path, the
returned PendingRequest carries only the parse error while its URL,
header map, and body buffer are absent (`none`, the nil pointers of Go's
`&Request{err: ...}`); nevertheless every public builder operation
(`Header`, `BasicAuth`, `QueryParam`, `Param`, `Body`, `JSONBody`,
`MultipartBody`) and `Send` applied to such a request returns normally
(`some`, never the `none` that models a nil-field fault) and leaves the
request untouched, because the failure check precedes every field
access. -/
theorem c10_failed_construction_never_faults (m p msg : String)
    (hp : parseURL p.toList = .error msg)
    (k v u pw b : String) (j : Except String String) (f : Form)
    (tr : Transport) :
    (New m p).url = none ∧ (New m p).headers = none ∧ (New m p).data = none ∧
    (New m p).err = some (.request ("error parsing url " ++ goQuote p ++ ": " ++ msg)) ∧
    (New m p).header k v = some (New m p) ∧
    (New m p).basicAuth u pw = some (New m p) ∧
    (New m p).queryParam k v = some (New m p) ∧
    (New m p).param k v = some (New m p) ∧
    (New m p).body b = some (New m p) ∧
    (New m p).jsonBody j = some (New m p) ∧
    (New m p).multipartBody f = some (New m p) ∧
    (New m p).send tr = some (⟨some emptyHttpResp, New m p⟩, false) := by
  have hp' : parseURL p.data = .error msg := hp
  have herr : (New m p).err =
      some (.request ("error parsing url " ++ goQuote p ++ ": " ++ msg)) := by
    simp [New, hp']
  refine ⟨by simp [New, hp'], by simp [New, hp'], by simp [New, hp'], herr,
    applyReqOp_of_err (.header k v) _ _ herr,
    applyReqOp_of_err (.basicAuth u pw) _ _ herr,
    applyReqOp_of_err (.queryParam k v) _ _ herr,
    applyReqOp_of_err (.param k v) _ _ herr,
    applyReqOp_of_err (.body b) _ _ herr,
    applyReqOp_of_err (.jsonBody j) _ _ herr,
    applyReqOp_of_err (.multipartBody f) _ _ herr,
    send_of_err _ _ tr herr⟩

theorem c10_failed_construction_never_faults_witness :
    (New "GET" "http://x/a\tb").header "k" "v" = some (New "GET" "http://x/a\tb") ∧
    (New "GET" "http://x/a\tb").send trOk =
      some (⟨some emptyHttpResp, New "GET" "http://x/a\tb"⟩, false) ∧
    (New "GET" "http://x/a\tb").url = none :=
  have T := c10_failed_construction_never_faults "GET" "http://x/a\tb"
    "net/url: invalid control character in URL" rfl
    "k" "v" "usr" "pw" "payload" (.ok "1") c6formOk trOk
  ⟨T.2.2.2.2.1, T.2.2.2.2.2.2.2.2.2.2.2, T.1⟩

end Quest
